import Mathlib

/-!
Verification of the WiredTiger hot-backup cursor subsystem
(`src/third_party/wiredtiger/src/cursor/cur_backup.c`).

The C code is shallowly embedded: the per-cursor state (`WT_CURSOR_BACKUP`
plus the cursor key flags), the connection-wide coordinator fields
(`hot_backup_start`, `hot_backup_list`), the session flags
(`WT_SESSION_BACKUP_CURSOR`, `WT_SESSION_BACKUP_DUP`) and the on-disk
backup marker files are explicit structures, and each C function becomes a
Lean function threading that state.  External collaborators (the metadata
table, the schema worker, the log subsystem's backup-file enumeration) of
which only the call sites live in this file are passed in as data or as
function parameters, following their documented contracts.
-/

deriving instance DecidableEq for Except

namespace CurBackup

/-- Fixed file names used by the backup subsystem (`WT_BACKUP_TMP`,
`WT_METADATA_BACKUP`, `WT_INCREMENTAL_BACKUP`, `WT_INCREMENTAL_SRC`,
`WT_BASECONFIG`, `WT_USERCONFIG`, `WT_WIREDTIGER`); the values are the
engine's conventional names, declared outside this file. -/
def WT_BACKUP_TMP : String := "WiredTiger.backup.tmp"

def WT_METADATA_BACKUP : String := "WiredTiger.backup"

def WT_INCREMENTAL_BACKUP : String := "WiredTiger.ibackup"

def WT_INCREMENTAL_SRC : String := "WiredTiger.isrc"

def WT_BASECONFIG : String := "WiredTiger.basecfg"

def WT_USERCONFIG : String := "WiredTiger.config"

def WT_WIREDTIGER : String := "WiredTiger"

/-- Leading namespace of internal system catalog objects (`WT_SYSTEM_PREFIX`). -/
def WT_SYSTEM_PFX : String := "system:"

/-- URI of the internal lookaside table (`WT_LAS_URI`), skipped by backup. -/
def WT_LAS_URI : String := "file:WiredTigerLAS.wt"

/-- Leading-substring test on character lists (structural, so that concrete
instances reduce inside the kernel). -/
def listPfx : List Char → List Char → Bool
  | [], _ => true
  | _ :: _, [] => false
  | a :: as, b :: bs => a == b && listPfx as bs

/-- Model of `WT_PREFIX_MATCH(s, p)`: `p` is a leading substring of `s`. -/
def pfxMatch (p s : String) : Bool := listPfx p.data s.data

/-- Error outcomes of the backup code.  In C all the `EINVAL` cases share the
errno and are told apart by their message; here each message is a
constructor. -/
inductive WTErr where
  | einvalAlreadyActive
  | einvalDupAlreadyActive
  | einvalDupNotLogOnly
  | einvalInvalidTarget
  | einvalLogArchive
  | enotsupObject
  | enotsupInMemory
  | wtNotFound
  deriving DecidableEq, Repr

/-- The `WT_CURSOR_BACKUP` structure together with the generic cursor key
flags: `list`/`next` are the file list and iteration position, `keySet`
models `WT_CURSTD_KEY_SET`/`WT_CURSTD_KEY_INT`, `valueSet` models
`WT_CURSTD_VALUE_SET`, `locker` models `WT_CURBACKUP_LOCKER`, `dup` models
`WT_CURBACKUP_DUP`, and `bfs`/`bfsOpen` model the cursor's temporary
metadata stream (`cb->bfs`) as the records written so far plus an
open-handle bit.  The C list is a NULL-terminated array; `none` models the
NULL pointer and `some l` a populated array. -/
structure Cursor where
  list : Option (List String)
  next : Nat
  keySet : Bool
  valueSet : Bool
  key : Option String
  locker : Bool
  dup : Bool
  bfs : List (String × String)
  bfsOpen : Bool
  deriving DecidableEq, Repr

/-- A freshly `__wt_calloc_one`d backup cursor: all fields zero. -/
def Cursor.fresh : Cursor :=
  { list := none, next := 0, keySet := false, valueSet := false, key := none,
    locker := false, dup := false, bfs := [], bfsOpen := false }

/-- The file list as a plain list (empty when the pointer is NULL). -/
def cbList (cb : Cursor) : List String := cb.list.getD []

/-- Model of `__curbackup_next`: with no list or at the terminating NULL,
clear the key-set flag and fail with `WT_NOTFOUND`; otherwise return the
current entry as the key, advance, and set the key flag. -/
def curbackup_next (cb : Cursor) : Except WTErr String × Cursor :=
  match cb.list with
  | none => (.error .wtNotFound, { cb with keySet := false })
  | some l =>
    if hlt : cb.next < l.length then
      (.ok (l.get ⟨cb.next, hlt⟩),
        { cb with key := some (l.get ⟨cb.next, hlt⟩), keySet := true,
                  next := cb.next + 1 })
    else
      (.error .wtNotFound, { cb with keySet := false })

/-- Model of `__curbackup_reset`: rewind the position and clear the key and
value flags. -/
def curbackup_reset (cb : Cursor) : Cursor :=
  { cb with next := 0, keySet := false, valueSet := false }

/-- Run `next` a given number of times, collecting each call's outcome and
the final cursor. -/
def runNext : Nat → Cursor → List (Except WTErr String) × Cursor
  | 0, cb => ([], cb)
  | n + 1, cb =>
    let r := curbackup_next cb
    let rest := runNext n r.2
    (r.1 :: rest.1, rest.2)

/-- The connection-wide coordinator fields of `WT_CONNECTION_IMPL` read or
written by `cur_backup.c`: `hot_backup_start` pins a checkpoint id (`0` is
"none"), `hot_backup_list` is the published file list (`none` models NULL),
`ckpt_most_recent` is the checkpoint subsystem's most recent id,
`log_enabled` models `conn->log`, `log_archive` models the
`WT_CONN_LOG_ARCHIVE` flag, `in_memory` the in-memory configuration, and
`logFiles` the segment names the log subsystem hands back through
`__wt_log_get_backup_files`. -/
structure Conn where
  hot_backup_start : Nat
  hot_backup_list : Option (List String)
  ckpt_most_recent : Nat
  log_enabled : Bool
  log_archive : Bool
  in_memory : Bool
  logFiles : List String
  deriving DecidableEq, Repr

/-- The session flags touched by the backup code:
`backup_cursor` models `WT_SESSION_BACKUP_CURSOR`, `backup_dup` models
`WT_SESSION_BACKUP_DUP`. -/
structure SessFlags where
  backup_cursor : Bool
  backup_dup : Bool
  deriving DecidableEq, Repr

/-- Existence of the on-disk files the backup code creates, renames,
checks for, or removes. -/
structure Fs where
  tmpFile : Bool
  incrBackupFile : Bool
  incrSrcFile : Bool
  metaBackupFile : Bool
  baseConfigFile : Bool
  userConfigFile : Bool
  deriving DecidableEq, Repr

/-- The state threaded through `__backup_start`/`__backup_stop`/
`__curbackup_close`: the cursor being operated on, the session flags, the
connection coordinator fields, and the file system. -/
structure SState where
  cb : Cursor
  sess : SessFlags
  conn : Conn
  fs : Fs
  deriving DecidableEq, Repr

/-- The on-disk name of a catalog URI: `__backup_list_append` strips the
leading `file:` namespace, and leaves every other name unchanged. -/
def dropScheme (uri : String) : String :=
  if pfxMatch "file:" uri then ⟨uri.data.drop 5⟩ else uri

/-- Model of `__backup_list_append`: append one name to the cursor's file
list (growing it from NULL on first use), stripping the `file:` namespace
when present. -/
def backup_list_append (cb : Cursor) (uri : String) : Cursor :=
  { cb with list := some (cbList cb ++ [dropScheme uri]) }

/-- Object-type check of `__backup_list_uri_append`: the recognized catalog
entry kinds that hot backup supports. -/
def recognized (name : String) : Bool :=
  pfxMatch "file:" name || pfxMatch "colgroup:" name || pfxMatch "index:" name ||
    pfxMatch "lsm:" name || pfxMatch WT_SYSTEM_PFX name || pfxMatch "table:" name

/-- Lookup in the metadata table, the contract of `__wt_metadata_search`:
the catalog is passed in as an association list of (name, descriptor). -/
def metaSearch (meta : List (String × String)) (name : String) : Option String :=
  (meta.find? (fun e => e.1 = name)).map (fun e => e.2)

/-- Model of `__backup_list_uri_append` (the per-entry visitor): reject
unrecognized object types, skip the lookaside table entirely, write a
(name, descriptor) record to the metadata stream for everything else, stop
there for `system:` entries, and append `file:` entries (namespace
stripped) to the copy list. -/
def backup_list_uri_append (meta : List (String × String)) (cb : Cursor)
    (name : String) : Except WTErr Cursor :=
  if ¬ recognized name then .error .enotsupObject
  else if name = WT_LAS_URI then .ok cb
  else
    match metaSearch meta name with
    | none => .error .wtNotFound
    | some value =>
      let cb := { cb with bfs := cb.bfs ++ [(name, value)] }
      if pfxMatch WT_SYSTEM_PFX name then .ok cb
      else if pfxMatch "file:" name then .ok (backup_list_append cb name)
      else .ok cb

/-- Apply the `__backup_list_uri_append` visitor to a sequence of catalog
entry names, stopping at the first error but keeping the state built so
far (the C visitor mutates the cursor in place).  This is the behavior of
`__wt_meta_apply_all` and `__wt_schema_worker` at their call sites, per
their contract: invoke the visitor on every entry, propagate its first
error. -/
def visitList (meta : List (String × String)) :
    List String → Cursor → Except WTErr Unit × Cursor
  | [], cb => (.ok (), cb)
  | n :: rest, cb =>
    match backup_list_uri_append meta cb n with
    | .error e => (.error e, cb)
    | .ok cb' => visitList meta rest cb'

/-- Model of `__backup_log_append`: when logging is configured, append
every segment name the log subsystem returns to the cursor's list;
otherwise do nothing. -/
def backup_log_append (conn : Conn) (cb : Cursor) : Cursor :=
  if conn.log_enabled then conn.logFiles.foldl backup_list_append cb else cb

/-- Model of the target-configuration loop of `__backup_uri`.  Targets are
(uri, value) pairs from the `target` configuration; `sw` gives, for a
non-log target URI, the catalog entries the schema worker visits for it
(the named object plus its dependents).  The accumulated booleans are
`target_list` (a target has been seen; the loop's for-update clause) and
`log_only` (the running value of `*log_only`).  Returns the final
`(target_list, log_only)` pair with the updated cursor, or the first
error with the state built so far. -/
def backup_uri (conn : Conn) (sw : String → List String)
    (meta : List (String × String)) (is_dup : Bool) :
    List (String × String) → Bool → Bool → Cursor →
      Except WTErr Unit × Bool × Bool × Cursor
  | [], target_list, log_only, cb => (.ok (), target_list, log_only, cb)
  | (u, v) :: rest, target_list, log_only, cb =>
    if v ≠ "" then (.error .einvalInvalidTarget, target_list, log_only, cb)
    else if pfxMatch "log:" u then
      if ¬ is_dup ∧ conn.log_archive then
        (.error .einvalLogArchive, target_list, log_only, cb)
      else
        backup_uri conn sw meta is_dup rest true (¬ target_list)
          (backup_log_append conn cb)
    else
      match visitList meta (sw u) cb with
      | (.error e, cb') => (.error e, target_list, log_only, cb')
      | (.ok _, cb') => backup_uri conn sw meta is_dup rest true false cb'

/-- The `err`/`done` tail of `__backup_start`: on error, no rename happens
and the still-open temporary stream is closed (the temporary file stays on
disk); on success, the temporary file is synced and renamed to the
destination chosen by `log_only` (closing the stream), the file list is
published in the connection, and the session's backup-cursor flag is set. -/
def backup_start_finish (r : Except WTErr Unit) (log_only : Bool)
    (st : SState) : Except WTErr Unit × SState :=
  match r with
  | .error e => (.error e, { st with cb := { st.cb with bfsOpen := false } })
  | .ok _ =>
    (.ok (),
      { st with
        cb := { st.cb with bfsOpen := false },
        fs := { st.fs with
                tmpFile := false,
                metaBackupFile := if log_only then st.fs.metaBackupFile else true,
                incrBackupFile := if log_only then true else st.fs.incrBackupFile },
        conn := { st.conn with hot_backup_list := st.cb.list },
        sess := { st.sess with backup_cursor := true } })

/-- Model of `__backup_start`.  The checks run in source order: the
in-memory rejection, the already-active check for non-duplicates, the
duplicate-already-open check for duplicates.  A non-duplicate then pins
the most recent checkpoint, clears the published list, takes the locker
flag, and opens the temporary metadata file; targets are processed by
`backup_uri`; a duplicate must resolve to log-only and returns directly
(`done` label); a full backup gathers log files and walks the whole
catalog; finally the fixed metadata/marker and configuration file names
are appended and the `err` tail runs. -/
def backup_start (sw : String → List String) (meta : List (String × String))
    (is_dup : Bool) (targets : List (String × String)) (st0 : SState) :
    Except WTErr Unit × SState :=
  let st := { st0 with cb := { st0.cb with next := 0, list := none } }
  if st.conn.in_memory then (.error .enotsupInMemory, st)
  else if st.conn.hot_backup_start ≠ 0 ∧ is_dup = false then
    (.error .einvalAlreadyActive, st)
  else if st.sess.backup_dup = true ∧ is_dup = true then
    (.error .einvalDupAlreadyActive, st)
  else
    let st :=
      if is_dup then st
      else
        { st with
          conn := { st.conn with
                    hot_backup_start := st.conn.ckpt_most_recent,
                    hot_backup_list := none },
          cb := { st.cb with locker := true, bfs := [], bfsOpen := true },
          fs := { st.fs with tmpFile := true } }
    match backup_uri st.conn sw meta is_dup targets false false st.cb with
    | (.error e, _, _, cb1) =>
      backup_start_finish (.error e) false { st with cb := cb1 }
    | (.ok _, target_list, log_only, cb1) =>
      if is_dup then
        if log_only = false then
          backup_start_finish (.error .einvalDupNotLogOnly) log_only
            { st with cb := cb1 }
        else
          (.ok (),
            { st with cb := { cb1 with dup := true },
                      sess := { st.sess with backup_dup := true } })
      else
        let step :=
          if target_list then (Except.ok (), cb1)
          else
            visitList meta (meta.map (fun e => e.1))
              (backup_log_append st.conn cb1)
        match step with
        | (.error e, cb2) =>
          backup_start_finish (.error e) log_only { st with cb := cb2 }
        | (.ok _, cb2) =>
          if log_only then
            backup_start_finish (.ok ()) true
              { st with cb := backup_list_append cb2 WT_INCREMENTAL_BACKUP,
                        fs := { st.fs with incrSrcFile := true } }
          else
            let cb3 := backup_list_append cb2 WT_METADATA_BACKUP
            let cb3 := if st.fs.baseConfigFile then
                backup_list_append cb3 WT_BASECONFIG else cb3
            let cb3 := if st.fs.userConfigFile then
                backup_list_append cb3 WT_USERCONFIG else cb3
            backup_start_finish (.ok ()) false
              { st with cb := backup_list_append cb3 WT_WIREDTIGER }

/-- Model of `__backup_stop`: clear the published list, free the cursor's
list, remove every backup marker file (`__wt_backup_file_remove`), clear
the pinned checkpoint id, and clear the session's backup-cursor flag. -/
def backup_stop (st : SState) : SState :=
  { st with
    conn := { st.conn with hot_backup_list := none, hot_backup_start := 0 },
    cb := { st.cb with list := none },
    fs := { st.fs with
            tmpFile := false, incrBackupFile := false,
            incrSrcFile := false, metaBackupFile := false },
    sess := { st.sess with backup_cursor := false } }

/-- Model of `__curbackup_close`: a duplicate cursor frees its own list and
clears the two duplicate flags only; a locker cursor runs `__backup_stop`;
any other cursor performs no backup teardown. -/
def curbackup_close (st : SState) : SState :=
  if st.cb.dup then
    { st with cb := { st.cb with list := none, dup := false },
              sess := { st.sess with backup_dup := false } }
  else if st.cb.locker then backup_stop st
  else st

/-- Model of `__wt_curbackup_open` on a fresh cursor already installed as
`session->bkp_cursor`: run `__backup_start` under the checkpoint and
schema locks and, on error, close the cursor before returning. -/
def curbackup_open (sw : String → List String) (meta : List (String × String))
    (is_dup : Bool) (targets : List (String × String)) (st : SState) :
    Except WTErr Unit × SState :=
  match backup_start sw meta is_dup targets st with
  | (.ok _, st') => (.ok (), st')
  | (.error e, st') => (.error e, curbackup_close st')

/-- Rollback completeness after a failed backup open, as the specification
states it: no temporary snapshot file, no backup marker files, no pinned
checkpoint id, no published list. -/
def rollbackComplete (st : SState) : Prop :=
  st.fs.tmpFile = false ∧ st.fs.incrBackupFile = false ∧
    st.fs.incrSrcFile = false ∧ st.fs.metaBackupFile = false ∧
    st.conn.hot_backup_start = 0 ∧ st.conn.hot_backup_list = none

instance (st : SState) : Decidable (rollbackComplete st) := by
  unfold rollbackComplete; infer_instance

/-! ### Concrete fixture states used by witnesses and counterexamples -/

/-- A quiescent connection: no backup active, logging configured with a
single segment file, archival off, not in-memory. -/
def conn0 : Conn :=
  { hot_backup_start := 0, hot_backup_list := none, ckpt_most_recent := 3,
    log_enabled := true, log_archive := false, in_memory := false,
    logFiles := ["WiredTigerLog.0000000001"] }

def sess0 : SessFlags := { backup_cursor := false, backup_dup := false }

def fs0 : Fs :=
  { tmpFile := false, incrBackupFile := false, incrSrcFile := false,
    metaBackupFile := false, baseConfigFile := false, userConfigFile := false }

/-- A quiescent full state with a fresh cursor. -/
def st0 : SState := { cb := Cursor.fresh, sess := sess0, conn := conn0, fs := fs0 }

/-- A schema worker for fixtures: no named targets are ever used with it. -/
def sw0 : String → List String := fun _ => []

/-! ### Helper lemmas about cursor iteration -/

lemma runNext_take (L : List String) :
    ∀ (n i : Nat) (cb : Cursor), cb.list = some L → cb.next = i →
      i + n ≤ L.length →
      (runNext n cb).1 = ((L.drop i).take n).map Except.ok ∧
      (runNext n cb).2.list = some L ∧ (runNext n cb).2.next = i + n := by
  intro n
  induction n with
  | zero =>
    intro i cb h1 h2 _
    simp [runNext, h1, h2]
  | succ m ih =>
    intro i cb h1 h2 hle
    have hlt : i < L.length := by omega
    have hstep : curbackup_next cb =
        (.ok (L.get ⟨i, hlt⟩),
          { cb with key := some (L.get ⟨i, hlt⟩), keySet := true,
                    next := i + 1 }) := by
      subst h2
      simp [curbackup_next, h1, hlt]
    have ihx := ih (i + 1)
      { cb with key := some (L.get ⟨i, hlt⟩), keySet := true, next := i + 1 }
      (by simp [h1]) rfl (by omega)
    have hdrop : L.drop i = L.get ⟨i, hlt⟩ :: L.drop (i + 1) := by
      rw [List.drop_eq_getElem_cons hlt, List.get_eq_getElem]
    refine ⟨?_, ?_, ?_⟩
    · simp only [runNext, hstep, ihx.1, hdrop, List.take_succ_cons, List.map_cons]
    · simpa [runNext, hstep] using ihx.2.1
    · have hn := ihx.2.2
      simp only [runNext, hstep]
      omega

/-! ### Claims about the cursor iteration protocol -/

/-- C2: for a backup cursor whose file list is `L` at position `i`: when
`i < length L`, `next` returns `L[i]` as the current key, sets the key
flag, and advances to `i + 1`; when `i = length L`, `next` fails with
`WT_NOTFOUND`, clears the key-set flag, and leaves the position where it
was. -/
theorem claim_C2_next_semantics (cb : Cursor) (L : List String)
    (h : cb.list = some L) :
    (∀ hlt : cb.next < L.length,
        curbackup_next cb =
          (.ok (L.get ⟨cb.next, hlt⟩),
            { cb with key := some (L.get ⟨cb.next, hlt⟩), keySet := true,
                      next := cb.next + 1 })) ∧
    (cb.next = L.length →
        curbackup_next cb = (.error .wtNotFound, { cb with keySet := false })) := by
  constructor
  · intro hlt
    simp [curbackup_next, h, hlt]
  · intro he
    simp [curbackup_next, h, he]

/-- Witness for C2 at a concrete two-element list, both in the middle and
at the end of the list. -/
theorem claim_C2_next_semantics_witness :
    curbackup_next { Cursor.fresh with list := some ["a", "b"] } =
      (.ok "a",
        { Cursor.fresh with list := some ["a", "b"], key := some "a",
                            keySet := true, next := 1 }) ∧
    curbackup_next { Cursor.fresh with list := some ["a", "b"], next := 2 } =
      (.error .wtNotFound,
        { Cursor.fresh with list := some ["a", "b"], next := 2,
                            keySet := false }) := by
  constructor
  · have h := (claim_C2_next_semantics
      { Cursor.fresh with list := some ["a", "b"] } ["a", "b"] rfl).1
      (by decide)
    simpa using h
  · have h := (claim_C2_next_semantics
      { Cursor.fresh with list := some ["a", "b"], next := 2 } ["a", "b"]
      rfl).2 (by decide)
    simpa using h

/-- C6: `next` called exactly `length L` times from position `0` returns
each entry of `L` once in insertion order, the following call fails with
`WT_NOTFOUND`, and after `reset` (position back to `0`, key and value
flags cleared) another `length L` calls reproduce the identical
sequence. -/
theorem claim_C6_enumerate_then_reset_replays (cb : Cursor) (L : List String)
    (hl : cb.list = some L) (h0 : cb.next = 0) :
    (runNext L.length cb).1 = L.map Except.ok ∧
    (curbackup_next (runNext L.length cb).2).1 = .error .wtNotFound ∧
    (curbackup_reset (runNext L.length cb).2).next = 0 ∧
    (curbackup_reset (runNext L.length cb).2).keySet = false ∧
    (curbackup_reset (runNext L.length cb).2).valueSet = false ∧
    (runNext L.length (curbackup_reset (runNext L.length cb).2)).1 =
      L.map Except.ok := by
  obtain ⟨hseq, hlist, hnext⟩ :=
    runNext_take L L.length 0 cb hl h0 (by omega)
  have hseq' : (runNext L.length cb).1 = L.map Except.ok := by
    simpa using hseq
  have hend : (curbackup_next (runNext L.length cb).2).1 =
      .error .wtNotFound := by
    simp [curbackup_next, hlist, hnext]
  have hr : (curbackup_reset (runNext L.length cb).2).list = some L := by
    simp [curbackup_reset, hlist]
  obtain ⟨hseq2, _, _⟩ :=
    runNext_take L L.length 0 (curbackup_reset (runNext L.length cb).2) hr
      (by simp [curbackup_reset]) (by omega)
  exact ⟨hseq', hend, by simp [curbackup_reset], by simp [curbackup_reset],
    by simp [curbackup_reset], by simpa using hseq2⟩

/-- Witness for C6 at a concrete two-element list. -/
theorem claim_C6_enumerate_then_reset_replays_witness :
    (runNext 2 { Cursor.fresh with list := some ["a", "b"] }).1 =
      [Except.ok "a", Except.ok "b"] ∧
    (curbackup_next (runNext 2 { Cursor.fresh with list := some ["a", "b"] }).2).1 =
      .error .wtNotFound ∧
    (runNext 2 (curbackup_reset
        (runNext 2 { Cursor.fresh with list := some ["a", "b"] }).2)).1 =
      [Except.ok "a", Except.ok "b"] := by
  have h := claim_C6_enumerate_then_reset_replays
    { Cursor.fresh with list := some ["a", "b"] } ["a", "b"] rfl rfl
  exact ⟨by simpa using h.1, by simpa using h.2.1, by simpa using h.2.2.2.2.2⟩

/-- C10: on a cursor whose file list was never allocated (NULL list
pointer), every `next` call fails with `WT_NOTFOUND`: the guard on the
missing list makes the call safe, the position never advances, the list
stays absent, and after at least one call the key-set flag is clear. -/
theorem claim_C10_next_safe_without_list (cb : Cursor) (h : cb.list = none)
    (n : Nat) :
    (runNext n cb).1 = List.replicate n (Except.error WTErr.wtNotFound) ∧
    (runNext n cb).2.next = cb.next ∧
    (runNext n cb).2.list = none ∧
    (0 < n → (runNext n cb).2.keySet = false) := by
  induction n generalizing cb with
  | zero => simp [runNext, h]
  | succ m ih =>
    have hstep : curbackup_next cb =
        (.error .wtNotFound, { cb with keySet := false }) := by
      simp [curbackup_next, h]
    obtain ⟨ih1, ih2, ih3, ih4⟩ := ih { cb with keySet := false } (by simp [h])
    refine ⟨?_, ?_, ?_, ?_⟩
    · simp [runNext, hstep, ih1, List.replicate_succ]
    · simpa [runNext, hstep] using ih2
    · simpa [runNext, hstep] using ih3
    · intro _
      rcases Nat.eq_zero_or_pos m with hm | hm
      · subst hm
        simp [runNext, hstep]
      · simpa [runNext, hstep] using ih4 hm

/-- Witness for C10: a fresh cursor (NULL list), three calls. -/
theorem claim_C10_next_safe_without_list_witness :
    (runNext 3 Cursor.fresh).1 =
      List.replicate 3 (Except.error WTErr.wtNotFound) ∧
    (runNext 3 Cursor.fresh).2.next = Cursor.fresh.next ∧
    (runNext 3 Cursor.fresh).2.list = none := by
  have h := claim_C10_next_safe_without_list Cursor.fresh rfl 3
  exact ⟨h.1, h.2.1, h.2.2.1⟩

/-! ### Helper lemmas about name namespaces -/

lemma listPfx_head {a : Char} {as s : List Char}
    (h : listPfx (a :: as) s = true) : ∃ t, s = a :: t := by
  cases s with
  | nil => simp [listPfx] at h
  | cons b t =>
    simp only [listPfx, Bool.and_eq_true, beq_iff_eq] at h
    exact ⟨t, by rw [h.1]⟩

/-- A `system:` name never also carries the `file:` namespace. -/
lemma system_not_file {name : String} (h : pfxMatch WT_SYSTEM_PFX name = true) :
    pfxMatch "file:" name = false := by
  unfold pfxMatch at h ⊢
  have hs : WT_SYSTEM_PFX.data = 's' :: ['y', 's', 't', 'e', 'm', ':'] := rfl
  rw [hs] at h
  obtain ⟨t, ht⟩ := listPfx_head h
  rw [ht]
  rfl

/-! ### Frame lemmas: list construction never touches the cursor flags -/

lemma backup_list_append_fields (cb : Cursor) (u : String) :
    cbList (backup_list_append cb u) = cbList cb ++ [dropScheme u] ∧
    (backup_list_append cb u).bfs = cb.bfs ∧
    (backup_list_append cb u).dup = cb.dup ∧
    (backup_list_append cb u).locker = cb.locker ∧
    (backup_list_append cb u).bfsOpen = cb.bfsOpen := by
  simp [backup_list_append, cbList]

lemma foldl_backup_list_append (names : List String) :
    ∀ cb : Cursor,
      cbList (names.foldl backup_list_append cb) =
        cbList cb ++ names.map dropScheme ∧
      (names.foldl backup_list_append cb).bfs = cb.bfs ∧
      (names.foldl backup_list_append cb).dup = cb.dup ∧
      (names.foldl backup_list_append cb).locker = cb.locker ∧
      (names.foldl backup_list_append cb).bfsOpen = cb.bfsOpen := by
  induction names with
  | nil => intro cb; simp
  | cons n rest ih =>
    intro cb
    have h := ih (backup_list_append cb n)
    simpa [backup_list_append, cbList] using h

lemma backup_log_append_fields (conn : Conn) (cb : Cursor) :
    cbList (backup_log_append conn cb) =
      cbList cb ++ (if conn.log_enabled then conn.logFiles.map dropScheme else []) ∧
    (backup_log_append conn cb).bfs = cb.bfs ∧
    (backup_log_append conn cb).dup = cb.dup ∧
    (backup_log_append conn cb).locker = cb.locker ∧
    (backup_log_append conn cb).bfsOpen = cb.bfsOpen := by
  by_cases h : conn.log_enabled
  · simpa [backup_log_append, h] using foldl_backup_list_append conn.logFiles cb
  · simp [backup_log_append, h]

lemma uri_append_ok_fields {meta : List (String × String)} {cb : Cursor}
    {name : String} {cb' : Cursor}
    (h : backup_list_uri_append meta cb name = .ok cb') :
    cb'.dup = cb.dup ∧ cb'.locker = cb.locker ∧ cb'.bfsOpen = cb.bfsOpen := by
  unfold backup_list_uri_append at h
  split at h
  · exact absurd h (by simp)
  · split at h
    · obtain rfl : cb = cb' := by simpa using h
      exact ⟨rfl, rfl, rfl⟩
    · split at h
      · exact absurd h (by simp)
      · split at h
        · obtain rfl : _ = cb' := by simpa using h
          exact ⟨rfl, rfl, rfl⟩
        · split at h
          · obtain rfl : _ = cb' := by simpa using h
            simp [backup_list_append]
          · obtain rfl : _ = cb' := by simpa using h
            exact ⟨rfl, rfl, rfl⟩

lemma visitList_flags (meta : List (String × String)) (names : List String) :
    ∀ cb : Cursor,
      (visitList meta names cb).2.dup = cb.dup ∧
      (visitList meta names cb).2.locker = cb.locker ∧
      (visitList meta names cb).2.bfsOpen = cb.bfsOpen := by
  induction names with
  | nil => intro cb; simp [visitList]
  | cons n rest ih =>
    intro cb
    unfold visitList
    cases h : backup_list_uri_append meta cb n with
    | error e => simp
    | ok cb' =>
      obtain ⟨h1, h2, h3⟩ := uri_append_ok_fields h
      simpa [h1, h2, h3] using ih cb'

lemma backup_uri_flags (conn : Conn) (sw : String → List String)
    (meta : List (String × String)) (d : Bool) :
    ∀ (ts : List (String × String)) (tl lo : Bool) (cb : Cursor),
      (backup_uri conn sw meta d ts tl lo cb).2.2.2.dup = cb.dup ∧
      (backup_uri conn sw meta d ts tl lo cb).2.2.2.locker = cb.locker ∧
      (backup_uri conn sw meta d ts tl lo cb).2.2.2.bfsOpen = cb.bfsOpen := by
  intro ts
  induction ts with
  | nil => intro tl lo cb; simp [backup_uri]
  | cons t rest ih =>
    intro tl lo cb
    obtain ⟨u, v⟩ := t
    by_cases hv : v ≠ ""
    · simp [backup_uri, hv]
    · have hv' : v = "" := by simpa using hv
      by_cases hu : pfxMatch "log:" u = true
      · by_cases ha : d = false ∧ conn.log_archive = true
        · simp [backup_uri, hv', hu, ha]
        · have hstep : backup_uri conn sw meta d ((u, v) :: rest) tl lo cb =
              backup_uri conn sw meta d rest true (¬ tl)
                (backup_log_append conn cb) := by
            simp [backup_uri, hv', hu, ha]
          obtain ⟨g1, g2, g3, g4, g5⟩ := backup_log_append_fields conn cb
          have hrec := ih true (¬ tl) (backup_log_append conn cb)
          rw [hstep]
          exact ⟨hrec.1.trans g3, hrec.2.1.trans g4, hrec.2.2.trans g5⟩
      · have hu' : pfxMatch "log:" u = false := by simpa using hu
        obtain ⟨f1, f2, f3⟩ := visitList_flags meta (sw u) cb
        cases hvl : visitList meta (sw u) cb with
        | mk r cb' =>
          rw [hvl] at f1 f2 f3
          cases r with
          | error e =>
            have hstep : backup_uri conn sw meta d ((u, v) :: rest) tl lo cb =
                (.error e, tl, lo, cb') := by
              simp [backup_uri, hv', hu', hvl]
            rw [hstep]
            exact ⟨f1, f2, f3⟩
          | ok w =>
            have hstep : backup_uri conn sw meta d ((u, v) :: rest) tl lo cb =
                backup_uri conn sw meta d rest true false cb' := by
              simp [backup_uri, hv', hu', hvl]
            have hrec := ih true false cb'
            rw [hstep]
            exact ⟨hrec.1.trans f1, hrec.2.1.trans f2, hrec.2.2.trans f3⟩

lemma backup_start_finish_cb (r : Except WTErr Unit) (lo : Bool) (st : SState) :
    (backup_start_finish r lo st).2.cb.locker = st.cb.locker ∧
    (backup_start_finish r lo st).2.cb.dup = st.cb.dup := by
  cases r with
  | error e => simp [backup_start_finish]
  | ok w => simp [backup_start_finish]

/-- After `__backup_stop`, nothing of the backup remains discoverable. -/
lemma rollback_backup_stop (st : SState) : rollbackComplete (backup_stop st) := by
  simp [rollbackComplete, backup_stop]

lemma backup_uri_flags_of_eq {conn : Conn} {sw : String → List String}
    {meta : List (String × String)} {d : Bool} {ts : List (String × String)}
    {tl lo : Bool} {cb : Cursor} {r : Except WTErr Unit} {tl2 lo2 : Bool}
    {cb2 : Cursor}
    (h : backup_uri conn sw meta d ts tl lo cb = (r, tl2, lo2, cb2)) :
    cb2.dup = cb.dup ∧ cb2.locker = cb.locker ∧ cb2.bfsOpen = cb.bfsOpen := by
  have hf := backup_uri_flags conn sw meta d ts tl lo cb
  rw [h] at hf
  exact hf

lemma visitList_flags_of_eq {meta : List (String × String)}
    {names : List String} {cb : Cursor} {r : Except WTErr Unit} {cb2 : Cursor}
    (h : visitList meta names cb = (r, cb2)) :
    cb2.dup = cb.dup ∧ cb2.locker = cb.locker ∧ cb2.bfsOpen = cb.bfsOpen := by
  have hf := visitList_flags meta names cb
  rw [h] at hf
  exact hf

/-- A non-duplicate `__backup_start` that passed the in-memory and
already-active checks always leaves the locker flag set on its cursor
(error or success) and never sets the duplicate flag. -/
lemma backup_start_nondup_flags (sw : String → List String)
    (meta : List (String × String)) (targets : List (String × String))
    (st : SState) (hm : st.conn.in_memory = false)
    (h0 : st.conn.hot_backup_start = 0) :
    (backup_start sw meta false targets st).2.cb.locker = true ∧
    (backup_start sw meta false targets st).2.cb.dup = st.cb.dup := by
  unfold backup_start
  simp only [hm, h0, Bool.false_eq_true, if_false, ne_eq, not_true_eq_false,
    false_and, and_false, if_true, ite_false, ite_true, reduceIte]
  split
  next e tl lo cb1 heq =>
    obtain ⟨hd, hl, _⟩ := backup_uri_flags_of_eq heq
    obtain ⟨q1, q2⟩ := backup_start_finish_cb (.error e) false _
    exact ⟨q1.trans (by simpa using hl), q2.trans (by simpa using hd)⟩
  next w tl lo cb1 heq =>
    obtain ⟨hd, hl, _⟩ := backup_uri_flags_of_eq heq
    have hl1 : cb1.locker = true := by simpa using hl
    have hd1 : cb1.dup = st.cb.dup := by simpa using hd
    split
    next e cb2 heq2 =>
      have hg : cb2.locker = true ∧ cb2.dup = st.cb.dup := by
        by_cases htl : tl = true
        · rw [htl] at heq2
          simp at heq2
        · simp only [htl, if_false, ite_false, reduceIte] at heq2
          obtain ⟨v1, v2, _⟩ := visitList_flags_of_eq heq2
          obtain ⟨g1, g2, g3, g4, g5⟩ := backup_log_append_fields _ cb1
          exact ⟨(v2.trans g4).trans hl1, (v1.trans g3).trans hd1⟩
      obtain ⟨q1, q2⟩ := backup_start_finish_cb (.error e) lo _
      exact ⟨q1.trans (by simpa using hg.1), q2.trans (by simpa using hg.2)⟩
    next w2 cb2 heq2 =>
      have hg : cb2.locker = true ∧ cb2.dup = st.cb.dup := by
        by_cases htl : tl = true
        · rw [htl] at heq2
          simp at heq2
          rw [← heq2]
          exact ⟨hl1, hd1⟩
        · simp only [htl, if_false, ite_false, reduceIte] at heq2
          obtain ⟨v1, v2, _⟩ := visitList_flags_of_eq heq2
          obtain ⟨g1, g2, g3, g4, g5⟩ := backup_log_append_fields _ cb1
          exact ⟨(v2.trans g4).trans hl1, (v1.trans g3).trans hd1⟩
      split
      · obtain ⟨q1, q2⟩ := backup_start_finish_cb (.ok ()) true _
        exact ⟨q1.trans (by simpa [backup_list_append] using hg.1),
          q2.trans (by simpa [backup_list_append] using hg.2)⟩
      · obtain ⟨q1, q2⟩ := backup_start_finish_cb (.ok ()) false _
        refine ⟨q1.trans ?_, q2.trans ?_⟩
        · split_ifs <;> simpa [backup_list_append] using hg.1
        · split_ifs <;> simpa [backup_list_append] using hg.2

/-! ### Claims about begin, the per-entry visitor, and close -/

/-- C4: a non-duplicate `__backup_start` while a backup is already active
(pinned checkpoint id nonzero) fails with the already-active `EINVAL` and
leaves the coordinator, session flags and file system unchanged; a
duplicate `__backup_start` while a duplicate cursor already exists
(session duplicate flag set) fails with the duplicate-already-open
`EINVAL`, likewise without touching that state. -/
theorem claim_C4_begin_mutual_exclusion (sw : String → List String)
    (meta : List (String × String)) (targets : List (String × String))
    (st : SState) (hm : st.conn.in_memory = false) :
    (st.conn.hot_backup_start ≠ 0 →
      (backup_start sw meta false targets st).1 = .error .einvalAlreadyActive ∧
      (backup_start sw meta false targets st).2.conn = st.conn ∧
      (backup_start sw meta false targets st).2.sess = st.sess ∧
      (backup_start sw meta false targets st).2.fs = st.fs) ∧
    (st.sess.backup_dup = true →
      (backup_start sw meta true targets st).1 = .error .einvalDupAlreadyActive ∧
      (backup_start sw meta true targets st).2.conn = st.conn ∧
      (backup_start sw meta true targets st).2.sess = st.sess ∧
      (backup_start sw meta true targets st).2.fs = st.fs) := by
  constructor
  · intro h
    simp [backup_start, hm, h]
  · intro h
    simp [backup_start, hm, h]

/-- Witness for C4: a connection with a pinned checkpoint and an open
duplicate cursor; both failing begins at that state. -/
theorem claim_C4_begin_mutual_exclusion_witness :
    (backup_start sw0 [] false []
        { st0 with conn := { conn0 with hot_backup_start := 7 },
                   sess := { sess0 with backup_dup := true } }).1 =
      .error .einvalAlreadyActive ∧
    (backup_start sw0 [] true []
        { st0 with conn := { conn0 with hot_backup_start := 7 },
                   sess := { sess0 with backup_dup := true } }).1 =
      .error .einvalDupAlreadyActive := by
  have h := claim_C4_begin_mutual_exclusion sw0 [] []
    { st0 with conn := { conn0 with hot_backup_start := 7 },
               sess := { sess0 with backup_dup := true } } rfl
  exact ⟨(h.1 (by decide)).1, (h.2 rfl).1⟩

/-- C5: the per-entry visitor `__backup_list_uri_append` skips the
lookaside table entirely (no snapshot record, no copy-list entry, no
state change), rejects an unrecognized object type, and for every other
recognized entry with a catalog descriptor writes exactly one
(name, descriptor) record to the metadata stream while appending to the
copy list exactly when the entry carries the `file:` namespace, with that
namespace stripped; in particular `system:` entries reach the snapshot
but never the copy list. -/
theorem claim_C5_catalog_visitor (meta : List (String × String)) (cb : Cursor)
    (name : String) :
    backup_list_uri_append meta cb WT_LAS_URI = .ok cb ∧
    (recognized name = false →
      backup_list_uri_append meta cb name = .error .enotsupObject) ∧
    (∀ v, recognized name = true → name ≠ WT_LAS_URI →
      metaSearch meta name = some v →
      backup_list_uri_append meta cb name = .ok
        { cb with
          bfs := cb.bfs ++ [(name, v)],
          list := if pfxMatch "file:" name then
              some (cbList cb ++ [dropScheme name])
            else cb.list }) := by
  refine ⟨?_, ?_, ?_⟩
  · have hrec : recognized WT_LAS_URI = true := by decide
    simp [backup_list_uri_append, hrec]
  · intro h
    simp [backup_list_uri_append, h]
  · intro v hrec hne hv
    by_cases hsys : pfxMatch WT_SYSTEM_PFX name = true
    · simp [backup_list_uri_append, hrec, hne, hv, hsys, system_not_file hsys]
    · by_cases hfile : pfxMatch "file:" name = true
      · simp [backup_list_uri_append, hrec, hne, hv, hsys, hfile,
          backup_list_append, cbList]
      · simp [backup_list_uri_append, hrec, hne, hv, hsys, hfile]

/-- Witness for C5: the lookaside skip, an unrecognized entry, a `file:`
entry, and a `system:` entry, each at concrete inputs. -/
theorem claim_C5_catalog_visitor_witness :
    backup_list_uri_append [("file:T", "dT")] Cursor.fresh WT_LAS_URI =
      .ok Cursor.fresh ∧
    backup_list_uri_append [("file:T", "dT")] Cursor.fresh "garbage:x" =
      .error .enotsupObject ∧
    backup_list_uri_append [("file:T", "dT")] Cursor.fresh "file:T" =
      .ok { Cursor.fresh with bfs := [("file:T", "dT")], list := some ["T"] } ∧
    backup_list_uri_append [("system:s", "dS")] Cursor.fresh "system:s" =
      .ok { Cursor.fresh with bfs := [("system:s", "dS")] } := by
  refine ⟨(claim_C5_catalog_visitor [("file:T", "dT")] Cursor.fresh "x").1,
    (claim_C5_catalog_visitor [("file:T", "dT")] Cursor.fresh "garbage:x").2.1
      (by decide), ?_, ?_⟩
  · have h := (claim_C5_catalog_visitor [("file:T", "dT")] Cursor.fresh
      "file:T").2.2 "dT" (by decide) (by decide) (by decide)
    simpa using h
  · have h := (claim_C5_catalog_visitor [("system:s", "dS")] Cursor.fresh
      "system:s").2.2 "dS" (by decide) (by decide) (by decide)
    simpa using h

/-- C9: closing a duplicate cursor touches only its own state — the list
is freed and the two duplicate flags cleared — leaving the coordinator
fields, the on-disk files, and the primary's backup-cursor flag
untouched; coordinator teardown (`__backup_stop`) runs exactly when the
closing cursor holds the locker flag, and a cursor with neither flag
changes nothing. -/
theorem claim_C9_close_frame (st : SState) :
    (st.cb.dup = true →
      (curbackup_close st).conn = st.conn ∧
      (curbackup_close st).fs = st.fs ∧
      (curbackup_close st).sess.backup_cursor = st.sess.backup_cursor ∧
      (curbackup_close st).cb.list = none ∧
      (curbackup_close st).cb.dup = false ∧
      (curbackup_close st).sess.backup_dup = false) ∧
    (st.cb.dup = false → st.cb.locker = true →
      curbackup_close st = backup_stop st) ∧
    (st.cb.dup = false → st.cb.locker = false → curbackup_close st = st) := by
  refine ⟨?_, ?_, ?_⟩
  · intro h
    simp [curbackup_close, h]
  · intro h hl
    simp [curbackup_close, h, hl]
  · intro h hl
    simp [curbackup_close, h, hl]

/-- Witness for C9: a duplicate cursor over an active primary with its
marker files on disk; closing it leaves coordinator, files and the
primary flag alone, and a locker-free, duplicate-free cursor's close is a
no-op. -/
theorem claim_C9_close_frame_witness :
    (curbackup_close
        { st0 with
          cb := { Cursor.fresh with dup := true, list := some ["l"] },
          sess := { backup_cursor := true, backup_dup := true },
          conn := { conn0 with hot_backup_start := 3, hot_backup_list := some ["T"] },
          fs := { fs0 with metaBackupFile := true } }).conn =
      { conn0 with hot_backup_start := 3, hot_backup_list := some ["T"] } ∧
    (curbackup_close
        { st0 with
          cb := { Cursor.fresh with dup := true, list := some ["l"] },
          sess := { backup_cursor := true, backup_dup := true },
          conn := { conn0 with hot_backup_start := 3, hot_backup_list := some ["T"] },
          fs := { fs0 with metaBackupFile := true } }).fs =
      { fs0 with metaBackupFile := true } ∧
    curbackup_close st0 = st0 := by
  have h := claim_C9_close_frame
    { st0 with
      cb := { Cursor.fresh with dup := true, list := some ["l"] },
      sess := { backup_cursor := true, backup_dup := true },
      conn := { conn0 with hot_backup_start := 3, hot_backup_list := some ["T"] },
      fs := { fs0 with metaBackupFile := true } }
  have h0 := claim_C9_close_frame st0
  exact ⟨(h.1 rfl).1, (h.1 rfl).2.1, h0.2.2 rfl rfl⟩

/-! ### Claim C1: rollback on failures during the Starting phase -/

/-- C1 (counterexample): the claim quantifies over every error returned by
`__backup_start` for a non-duplicate session, but the already-active
rejection is returned before the cursor takes the locker flag, so closing
that cursor performs no coordinator teardown: with another backup active
(pinned id 7, published list), the failed open leaves the pin and the
published list in place — correctly so, since they belong to the other
session, but contrary to the claim's unconditional rollback. -/
theorem claim_C1_counterexample :
    (curbackup_open sw0 [] false []
        { st0 with
          conn := { conn0 with hot_backup_start := 7, hot_backup_list := some ["x"] } }).1 =
      .error .einvalAlreadyActive ∧
    ¬ rollbackComplete (curbackup_open sw0 [] false []
        { st0 with
          conn := { conn0 with hot_backup_start := 7, hot_backup_list := some ["x"] } }).2 := by
  constructor
  · decide
  · decide

/-- C1 (amended): for every catalog state and every error returned by a
non-duplicate `__backup_start` that passed the in-memory and
already-active checks (equivalently: once the cursor acquired the locker
flag), closing the cursor performs full rollback — the temporary snapshot
file and all backup marker files are removed, the pinned checkpoint id is
cleared to `0`, and the published list is NULL. -/
theorem claim_C1_rollback_after_locker (sw : String → List String)
    (meta : List (String × String)) (targets : List (String × String))
    (st : SState) (e : WTErr) (hm : st.conn.in_memory = false)
    (h0 : st.conn.hot_backup_start = 0) (hd : st.cb.dup = false)
    (herr : (backup_start sw meta false targets st).1 = .error e) :
    (curbackup_open sw meta false targets st).1 = .error e ∧
    rollbackComplete (curbackup_open sw meta false targets st).2 := by
  obtain ⟨hl, hdup⟩ := backup_start_nondup_flags sw meta targets st hm h0
  unfold curbackup_open
  cases hbs : backup_start sw meta false targets st with
  | mk r st' =>
    rw [hbs] at herr hl hdup
    cases r with
    | ok w => exact absurd herr (by simp)
    | error e2 =>
      obtain rfl : e2 = e := by simpa using herr
      simp only [Prod.snd] at hdup hl
      have hclose : curbackup_close st' = backup_stop st' := by
        simp [curbackup_close, hdup, hd, hl]
      constructor
      · rfl
      · have hr : rollbackComplete (backup_stop st') := rollback_backup_stop st'
        simpa [hclose] using hr

/-- Witness for the amended C1: a full backup over a catalog holding an
unrecognized object type fails after the pin was taken; the closed cursor
leaves a fully rolled-back state. -/
theorem claim_C1_rollback_after_locker_witness :
    (curbackup_open sw0 [("garbage:x", "d")] false [] st0).1 =
      .error .enotsupObject ∧
    rollbackComplete (curbackup_open sw0 [("garbage:x", "d")] false [] st0).2 := by
  exact claim_C1_rollback_after_locker sw0 [("garbage:x", "d")] [] st0
    .enotsupObject rfl rfl rfl (by decide)

/-! ### Claim C7: duplicate cursors are log-only -/

lemma backup_uri_after_first (conn : Conn) (sw : String → List String)
    (meta : List (String × String)) (d : Bool) :
    ∀ (ts : List (String × String)) (lo : Bool) (cb : Cursor)
      {tl2 lo2 : Bool} {cb2 : Cursor},
      backup_uri conn sw meta d ts true lo cb = (.ok (), tl2, lo2, cb2) →
      lo2 = (if ts = [] then lo else false) := by
  intro ts
  induction ts with
  | nil =>
    intro lo cb tl2 lo2 cb2 h
    simp only [backup_uri, Prod.mk.injEq] at h
    simp [h.2.2.1]
  | cons t rest ih =>
    intro lo cb tl2 lo2 cb2 h
    obtain ⟨u, v⟩ := t
    by_cases hv : v ≠ ""
    · simp [backup_uri, hv] at h
    · have hv' : v = "" := by simpa using hv
      by_cases hu : pfxMatch "log:" u = true
      · by_cases ha : d = false ∧ conn.log_archive = true
        · simp [backup_uri, hv', hu, ha] at h
        · rw [show backup_uri conn sw meta d ((u, v) :: rest) true lo cb =
              backup_uri conn sw meta d rest true (¬ true)
                (backup_log_append conn cb) from by
            simp [backup_uri, hv', hu, ha]] at h
          have := ih (¬ true) (backup_log_append conn cb) h
          simp only [this]
          by_cases hr : rest = [] <;> simp [hr]
      · have hu' : pfxMatch "log:" u = false := by simpa using hu
        cases hvl : visitList meta (sw u) cb with
        | mk r cb' =>
          cases r with
          | error e => simp [backup_uri, hv', hu', hvl] at h
          | ok w =>
            rw [show backup_uri conn sw meta d ((u, v) :: rest) true lo cb =
                backup_uri conn sw meta d rest true false cb' from by
              simp [backup_uri, hv', hu', hvl]] at h
            have := ih false cb' h
            simp only [this]
            by_cases hr : rest = [] <;> simp [hr]

/-- Starting from no targets seen, `backup_uri` resolves to log-only
exactly when the whole target list is a single `log:` target. -/
lemma backup_uri_log_only_single (conn : Conn) (sw : String → List String)
    (meta : List (String × String)) (d : Bool)
    (ts : List (String × String)) (cb : Cursor) {tl2 : Bool} {cb2 : Cursor}
    (h : backup_uri conn sw meta d ts false false cb = (.ok (), tl2, true, cb2)) :
    ∃ u, ts = [(u, "")] ∧ pfxMatch "log:" u = true := by
  cases ts with
  | nil => simp [backup_uri] at h
  | cons t rest =>
    obtain ⟨u, v⟩ := t
    by_cases hv : v ≠ ""
    · simp [backup_uri, hv] at h
    · have hv' : v = "" := by simpa using hv
      by_cases hu : pfxMatch "log:" u = true
      · by_cases ha : d = false ∧ conn.log_archive = true
        · simp [backup_uri, hv', hu, ha] at h
        · rw [show backup_uri conn sw meta d ((u, v) :: rest) false false cb =
              backup_uri conn sw meta d rest true (¬ false)
                (backup_log_append conn cb) from by
            simp [backup_uri, hv', hu, ha]] at h
          have hlo := backup_uri_after_first conn sw meta d rest (¬ false)
            (backup_log_append conn cb) h
          by_cases hr : rest = []
          · exact ⟨u, by simp [hr, hv'], hu⟩
          · simp [hr] at hlo
      · have hu' : pfxMatch "log:" u = false := by simpa using hu
        cases hvl : visitList meta (sw u) cb with
        | mk r cb' =>
          cases r with
          | error e => simp [backup_uri, hv', hu', hvl] at h
          | ok w =>
            rw [show backup_uri conn sw meta d ((u, v) :: rest) false false cb =
                backup_uri conn sw meta d rest true false cb' from by
              simp [backup_uri, hv', hu', hvl]] at h
            have hlo := backup_uri_after_first conn sw meta d rest false cb' h
            by_cases hr : rest = [] <;> simp [hr] at hlo

/-- C7: a duplicate `__backup_start` (primary active, no duplicate open
yet) succeeds only when the resolved target configuration is log-only —
a single `log:` target with an empty value; when target resolution
succeeds but is not log-only (a non-log target, several targets, or no
target at all), the open fails with the logs-only `EINVAL` and neither
duplicate flag is ever set. -/
theorem claim_C7_duplicate_log_only (sw : String → List String)
    (meta : List (String × String)) (targets : List (String × String))
    (st : SState) (hm : st.conn.in_memory = false)
    (hnd : st.sess.backup_dup = false) :
    ((backup_start sw meta true targets st).1 = .ok () →
      ∃ u, targets = [(u, "")] ∧ pfxMatch "log:" u = true) ∧
    (∀ (tl : Bool) (cb1 : Cursor),
      backup_uri st.conn sw meta true targets false false
          { st.cb with next := 0, list := none } = (.ok (), tl, false, cb1) →
      (backup_start sw meta true targets st).1 = .error .einvalDupNotLogOnly ∧
      (backup_start sw meta true targets st).2.cb.dup = st.cb.dup ∧
      (backup_start sw meta true targets st).2.sess.backup_dup = false) := by
  unfold backup_start
  simp only [hm, hnd, Bool.false_eq_true, Bool.true_eq_false, if_false,
    and_false, false_and, ite_false, ite_true, reduceIte, if_true]
  constructor
  · intro hok
    revert hok
    split
    next e tl lo cb1 heq => simp [backup_start_finish]
    next w tl lo cb1 heq =>
      intro hok
      by_cases hlo : lo = true
      · rw [hlo] at heq
        exact backup_uri_log_only_single st.conn sw meta true targets _ heq
      · have hlo' : lo = false := by simpa using hlo
        rw [hlo'] at hok
        simp [backup_start_finish] at hok
  · intro tl cb1 hu
    rw [hu]
    obtain ⟨hd, _, _⟩ := backup_uri_flags_of_eq hu
    have hd' : cb1.dup = st.cb.dup := by simpa using hd
    simp [backup_start_finish, hd', hnd]

/-- Witness for C7: a duplicate open with a single `log:` target succeeds
and is log-only; one with no target at all fails with the logs-only
`EINVAL` and leaves the duplicate flags clear. -/
theorem claim_C7_duplicate_log_only_witness :
    (∃ u, [(("log:" : String), ("" : String))] = [(u, "")] ∧
      pfxMatch "log:" u = true) ∧
    (backup_start sw0 [] true [] st0).1 = .error .einvalDupNotLogOnly ∧
    (backup_start sw0 [] true [] st0).2.cb.dup = false ∧
    (backup_start sw0 [] true [] st0).2.sess.backup_dup = false := by
  have h1 := (claim_C7_duplicate_log_only sw0 [] [("log:", "")] st0 rfl rfl).1
    (by decide)
  have h2 := (claim_C7_duplicate_log_only sw0 [] [] st0 rfl rfl).2 false
    { Cursor.fresh with next := 0, list := none } (by decide)
  exact ⟨h1, h2.1, by rw [h2.2.1]; rfl, h2.2.2⟩

/-! ### Claim C8: file-list order and uniqueness -/

/-- C8 (counterexample): `__backup_list_append` never checks for
duplicates, so uniqueness of the file list is not an invariant of the
code: a target list naming `log:` twice appends the same log segment
twice, and the completed, published list carries the duplicate. -/
theorem claim_C8_counterexample :
    (backup_start sw0 [] false [("log:", ""), ("log:", "")] st0).1 = .ok () ∧
    (backup_start sw0 [] false [("log:", ""), ("log:", "")] st0).2.conn.hot_backup_list =
      some ["WiredTigerLog.0000000001", "WiredTigerLog.0000000001",
        "WiredTiger.backup", "WiredTiger"] ∧
    ¬ (["WiredTigerLog.0000000001", "WiredTigerLog.0000000001",
        "WiredTiger.backup", "WiredTiger"] : List String).Nodup := by
  refine ⟨by decide, by decide, by decide⟩

/-- C8 (amended): the file list is exactly the sequence of append
operations — insertion order preserved, one entry per append, `file:`
namespaces stripped — and iterating the cursor from position `0`
reproduces it; the list is duplicate-free exactly when the appended
names are pairwise distinct (uniqueness is not enforced by the code). -/
theorem claim_C8_insertion_order (cb : Cursor) (names : List String) :
    cbList (names.foldl backup_list_append cb) =
      cbList cb ++ names.map dropScheme ∧
    ((cbList cb ++ names.map dropScheme).Nodup →
      (cbList (names.foldl backup_list_append cb)).Nodup) ∧
    (∀ L, (names.foldl backup_list_append cb).list = some L →
      (names.foldl backup_list_append cb).next = 0 →
      (runNext L.length (names.foldl backup_list_append cb)).1 =
        L.map Except.ok) := by
  obtain ⟨h1, _, _, _, _⟩ := foldl_backup_list_append names cb
  refine ⟨h1, ?_, ?_⟩
  · intro h
    rwa [h1]
  · intro L hL h0
    obtain ⟨hs, _, _⟩ := runNext_take L L.length 0 _ hL h0 (by omega)
    simpa using hs

/-- Witness for the amended C8 at a concrete append sequence. -/
theorem claim_C8_insertion_order_witness :
    cbList (["file:a", "b"].foldl backup_list_append Cursor.fresh) = ["a", "b"] ∧
    (cbList (["file:a", "b"].foldl backup_list_append Cursor.fresh)).Nodup ∧
    (runNext 2 (["file:a", "b"].foldl backup_list_append Cursor.fresh)).1 =
      [Except.ok "a", Except.ok "b"] := by
  have h := claim_C8_insertion_order Cursor.fresh ["file:a", "b"]
  refine ⟨by simpa using h.1, h.2.1 (by decide), ?_⟩
  have h3 := h.2.2 ["a", "b"] (by decide) (by decide)
  simpa using h3

/-! ### Claim C3: layout of a full-backup file list -/

/-- A `file:` name never also carries the `system:` namespace. -/
lemma file_not_system {name : String} (h : pfxMatch "file:" name = true) :
    pfxMatch WT_SYSTEM_PFX name = false := by
  unfold pfxMatch at h ⊢
  have hf : ("file:" : String).data = 'f' :: ['i', 'l', 'e', ':'] := rfl
  rw [hf] at h
  obtain ⟨tl, htl⟩ := listPfx_head h
  rw [htl]
  rfl

lemma cbList_append_one (cb : Cursor) (u : String) :
    cbList (backup_list_append cb u) = cbList cb ++ [dropScheme u] :=
  (backup_list_append_fields cb u).1

lemma cbList_foldl (names : List String) (cb : Cursor) :
    cbList (names.foldl backup_list_append cb) =
      cbList cb ++ names.map dropScheme :=
  (foldl_backup_list_append names cb).1

lemma bfs_foldl (names : List String) (cb : Cursor) :
    (names.foldl backup_list_append cb).bfs = cb.bfs :=
  (foldl_backup_list_append names cb).2.1

lemma list_foldl_getD (names : List String) (cb : Cursor) :
    (names.foldl backup_list_append cb).list.getD [] =
      cb.list.getD [] ++ names.map dropScheme :=
  cbList_foldl names cb

lemma list_append_getD (cb : Cursor) (u : String) :
    (backup_list_append cb u).list =
      some (cb.list.getD [] ++ [dropScheme u]) := rfl

lemma bfs_append_one (cb : Cursor) (u : String) :
    (backup_list_append cb u).bfs = cb.bfs := rfl

/-- C3 (counterexample): the spec's scenario puts the table file last,
after the metadata backup file and the `WiredTiger` file; the code
instead walks the catalog (appending the table file) before appending
the fixed names, so the produced order has the table file directly after
the log segments and `WiredTiger` last. -/
theorem claim_C3_counterexample :
    (backup_start sw0 [("file:T", "dT")] false [] st0).1 = .ok () ∧
    (backup_start sw0 [("file:T", "dT")] false [] st0).2.conn.hot_backup_list =
      some ["WiredTigerLog.0000000001", "T", "WiredTiger.backup", "WiredTiger"] ∧
    ["WiredTigerLog.0000000001", "T", "WiredTiger.backup", "WiredTiger"] ≠
      ["WiredTigerLog.0000000001", "WiredTiger.backup", "WiredTiger", "T"] := by
  refine ⟨by decide, by decide, by decide⟩

/-- C3 (amended): a full (non-target) backup of a catalog holding one
file-backed table with logging enabled produces the file list in the
order: log segment files first, then the table's on-disk file, then the
metadata backup file name, then the optional base/user config files, and
the `WiredTiger` file last; the metadata snapshot holds exactly the
table's (name, descriptor) record. -/
theorem claim_C3_full_backup_layout (sw : String → List String)
    (ls : List String) (t d : String) (st : SState)
    (hm : st.conn.in_memory = false) (h0 : st.conn.hot_backup_start = 0)
    (hlog : st.conn.log_enabled = true) (hlf : st.conn.logFiles = ls)
    (hnf : ∀ l ∈ ls, pfxMatch "file:" l = false)
    (ht : pfxMatch "file:" t = true) (hlas : t ≠ WT_LAS_URI) :
    (backup_start sw [(t, d)] false [] st).1 = .ok () ∧
    (backup_start sw [(t, d)] false [] st).2.conn.hot_backup_list =
      some (ls ++ [dropScheme t, WT_METADATA_BACKUP] ++
        (if st.fs.baseConfigFile then [WT_BASECONFIG] else []) ++
        (if st.fs.userConfigFile then [WT_USERCONFIG] else []) ++
        [WT_WIREDTIGER]) ∧
    (backup_start sw [(t, d)] false [] st).2.cb.bfs = [(t, d)] := by
  have hrec : recognized t = true := by simp [recognized, ht]
  have happ : ∀ x : Cursor, backup_list_uri_append [(t, d)] x t =
      .ok (backup_list_append { x with bfs := x.bfs ++ [(t, d)] } t) := by
    intro x
    simp [backup_list_uri_append, hrec, hlas, metaSearch, file_not_system ht, ht]
  have hvstep : ∀ x : Cursor, visitList [(t, d)] [t] x =
      (.ok (), backup_list_append { x with bfs := x.bfs ++ [(t, d)] } t) := by
    intro x
    simp [visitList, happ x]
  have hmap : ls.map dropScheme = ls := by
    have : ∀ l ∈ ls, dropScheme l = id l := by
      intro l hl
      simp [dropScheme, hnf l hl]
    rw [List.map_congr_left this, List.map_id]
  have hds1 : dropScheme WT_METADATA_BACKUP = WT_METADATA_BACKUP := by decide
  have hds2 : dropScheme WT_BASECONFIG = WT_BASECONFIG := by decide
  have hds3 : dropScheme WT_USERCONFIG = WT_USERCONFIG := by decide
  have hds4 : dropScheme WT_WIREDTIGER = WT_WIREDTIGER := by decide
  unfold backup_start
  simp only [hm, h0, Bool.false_eq_true, if_false, ne_eq, not_true_eq_false,
    false_and, and_false, if_true, ite_false, ite_true, reduceIte]
  simp only [backup_uri, List.map_cons, List.map_nil]
  rw [hvstep]
  by_cases hb : st.fs.baseConfigFile = true <;>
    by_cases hu : st.fs.userConfigFile = true <;>
      refine ⟨rfl, ?_, ?_⟩ <;>
        simp [backup_start_finish, backup_log_append, hlog, hlf, hmap,
          hds1, hds2, hds3, hds4, hb, hu, cbList, list_foldl_getD,
          bfs_foldl, list_append_getD, bfs_append_one]

/-- Witness for the amended C3 at a concrete catalog and log set. -/
theorem claim_C3_full_backup_layout_witness :
    (backup_start sw0 [("file:T", "dT")] false [] st0).1 = .ok () ∧
    (backup_start sw0 [("file:T", "dT")] false [] st0).2.conn.hot_backup_list =
      some (["WiredTigerLog.0000000001"] ++ [dropScheme "file:T", WT_METADATA_BACKUP] ++
        (if st0.fs.baseConfigFile then [WT_BASECONFIG] else []) ++
        (if st0.fs.userConfigFile then [WT_USERCONFIG] else []) ++
        [WT_WIREDTIGER]) ∧
    (backup_start sw0 [("file:T", "dT")] false [] st0).2.cb.bfs = [("file:T", "dT")] := by
  exact claim_C3_full_backup_layout sw0 ["WiredTigerLog.0000000001"] "file:T"
    "dT" st0 rfl rfl rfl rfl (by decide) (by decide) (by decide)

end CurBackup
